import Mathlib

/-!
Verification of the plan-analysis engine of the cardinality-estimation-quality
repository. The Python sources are embedded shallowly: machine floats become
rationals, Python dictionaries become association lists in insertion order,
raised exceptions become the error case of an Except value.
-/

namespace CardEst

/-- Embedding of selectivity_quality.q_error. The Python source reads:
if estimated > actual, floor the actual at 1 and return estimated / actual;
otherwise floor the estimated at 1 and return actual / estimated * -1. -/
def q_error (estimated actual : ℚ) : ℚ :=
  if actual < estimated then
    estimated / max actual 1
  else
    actual / max estimated 1 * -1

/-- The overestimation branch of q_error. -/
theorem q_error_of_actual_lt (estimated actual : ℚ) (h : actual < estimated) :
    q_error estimated actual = estimated / max actual 1 := by
  simp [q_error, h]

/-- The underestimation branch of q_error. -/
theorem q_error_of_le (estimated actual : ℚ) (h : estimated ≤ actual) :
    q_error estimated actual = actual / max estimated 1 * -1 := by
  simp [q_error, not_lt.mpr h]

/-- C1: q_error returns estimated / max(actual, 1) when estimated > actual and
the negated ratio actual / max(estimated, 1) otherwise, the equality case
included; on the spec examples it yields 10, -10, -1 and -50, and it is a
total function, so zero inputs raise no error. -/
theorem q_error_definition_cases :
    (∀ estimated actual : ℚ, actual < estimated →
      q_error estimated actual = estimated / max actual 1) ∧
    (∀ estimated actual : ℚ, estimated ≤ actual →
      q_error estimated actual = -(actual / max estimated 1)) ∧
    q_error 100 10 = 10 ∧ q_error 10 100 = -10 ∧
    q_error 5 5 = -1 ∧ q_error 0 50 = -50 := by
  refine ⟨fun e a h => q_error_of_actual_lt e a h,
    fun e a h => by rw [q_error_of_le e a h]; ring, ?_, ?_, ?_, ?_⟩ <;>
    norm_num [q_error]

/-- C1 witness: both conditional branches instantiated at concrete inputs. -/
theorem q_error_definition_cases_witness :
    q_error 100 10 = 100 / max 10 1 ∧ q_error 10 100 = -(100 / max 10 1) :=
  ⟨q_error_definition_cases.1 100 10 (by norm_num),
   q_error_definition_cases.2.1 10 100 (by norm_num)⟩

/-- C5 counterexample: at the non-negative input pair (0, 0) the q_error is 0,
which lies strictly inside the open interval (-1, 1), so the magnitude of the
result is not always at least 1. -/
theorem q_error_magnitude_counterexample :
    (0:ℚ) ≤ 0 ∧ q_error 0 0 = 0 ∧ -1 < q_error 0 0 ∧ q_error 0 0 < 1 := by
  norm_num [q_error]

/-- C5 amended: for non-negative inputs of which at least one is at least 1,
the magnitude of q_error is at least 1; when both inputs are below 1 (as in
the counterexample q_error 0 0 = 0) the magnitude can drop below 1. -/
theorem q_error_magnitude_ge_one_amended (estimated actual : ℚ)
    (he : 0 ≤ estimated) (ha : 0 ≤ actual)
    (hone : 1 ≤ estimated ∨ 1 ≤ actual) :
    1 ≤ |q_error estimated actual| := by
  rcases lt_or_le actual estimated with h | h
  · rw [q_error_of_actual_lt estimated actual h]
    have hden : (0:ℚ) < max actual 1 := lt_max_of_lt_right one_pos
    have hnum : max actual 1 ≤ estimated := by
      rcases le_total actual 1 with h1 | h1
      · rw [max_eq_right h1]
        rcases hone with h2 | h2
        · exact h2
        · linarith
      · rw [max_eq_left h1]; exact le_of_lt h
    have : 1 ≤ estimated / max actual 1 := (one_le_div hden).mpr hnum
    rw [abs_of_nonneg (le_trans zero_le_one this)]
    exact this
  · rw [q_error_of_le estimated actual h]
    have hden : (0:ℚ) < max estimated 1 := lt_max_of_lt_right one_pos
    have hnum : max estimated 1 ≤ actual := by
      rcases le_total estimated 1 with h1 | h1
      · rw [max_eq_right h1]
        rcases hone with h2 | h2
        · exact le_trans h2 h
        · exact h2
      · rw [max_eq_left h1]; exact h
    have hdiv : 1 ≤ actual / max estimated 1 := (one_le_div hden).mpr hnum
    rw [mul_neg_one, abs_neg, abs_of_nonneg (le_trans zero_le_one hdiv)]
    exact hdiv

/-- C5 amended witness: the amended bound evaluated at the inputs (3, 7). -/
theorem q_error_magnitude_ge_one_amended_witness :
    1 ≤ |q_error 3 7| :=
  q_error_magnitude_ge_one_amended 3 7 (by norm_num) (by norm_num)
    (Or.inl (by norm_num))

/-- C10: for inputs that are both at least 1, swapping the arguments negates
the q_error whenever the inputs differ, and at equality both argument orders
return -1 (so antisymmetry fails exactly there). -/
theorem q_error_antisymmetry (estimated actual : ℚ)
    (he : 1 ≤ estimated) (ha : 1 ≤ actual) :
    (estimated ≠ actual →
      q_error estimated actual = -q_error actual estimated) ∧
    (estimated = actual →
      q_error estimated actual = -1 ∧ q_error actual estimated = -1) := by
  constructor
  · intro hne
    rcases lt_or_gt_of_ne hne with h | h
    · rw [q_error_of_le estimated actual (le_of_lt h),
        q_error_of_actual_lt actual estimated h]
      ring
    · rw [q_error_of_actual_lt estimated actual h,
        q_error_of_le actual estimated (le_of_lt h)]
      ring
  · intro heq
    subst heq
    rw [q_error_of_le estimated estimated le_rfl,
      max_eq_left he, div_self (by linarith)]
    norm_num

/-- C10 witness: antisymmetry instantiated at the input pair (2, 3). -/
theorem q_error_antisymmetry_witness :
    q_error 2 3 = -q_error 3 2 :=
  (q_error_antisymmetry 2 3 (by norm_num) (by norm_num)).1 (by norm_num)

/-- One step of the loop body of compare_query_times from slow_down.py and
plan_space.py: look the query name up in the second run and, when present,
append the time ratio to the accumulator. -/
def compareStep (run_b : List (String × ℚ)) (ratios : List ℚ)
    (p : String × ℚ) : List ℚ :=
  match List.lookup p.1 run_b with
  | some time_b => ratios ++ [p.2 / time_b]
  | none => ratios

/-- Embedding of compare_query_times: iterate over run_a in insertion order,
starting from the empty ratio list. A ConfigurationRun (a Python dict of
query name to elapsed time) is an association list in insertion order. -/
def compare_query_times (run_a run_b : List (String × ℚ)) : List ℚ :=
  run_a.foldl (compareStep run_b) []

/-- Restatement of the comparator from the words of the spec: keep exactly
the entries of run_a whose identifier also appears in run_b, in run_a order,
and map each to the ratio of the two stored times. -/
def compareSpec (run_a run_b : List (String × ℚ)) : List ℚ :=
  (run_a.filter (fun p => (List.lookup p.1 run_b).isSome)).map
    (fun p => p.2 / ((List.lookup p.1 run_b).getD 1))

theorem foldl_compareStep (run_b : List (String × ℚ)) :
    ∀ (run_a : List (String × ℚ)) (acc : List ℚ),
      run_a.foldl (compareStep run_b) acc = acc ++ compareSpec run_a run_b
  | [], acc => by simp [compareSpec]
  | p :: rest, acc => by
    rw [List.foldl_cons, foldl_compareStep run_b rest]
    unfold compareStep compareSpec
    cases h : List.lookup p.1 run_b with
    | none => simp [compareSpec, h]
    | some time_b => simp [compareSpec, h]

/-- C6: compare_query_times emits run_a[id] / run_b[id] for exactly the
identifiers present in both runs, in the insertion order of run_a, silently
skipping identifiers present in only one run; on the spec example only q1 is
shared and the output is [2.0]. -/
theorem compare_query_times_shared_ids :
    (∀ run_a run_b : List (String × ℚ),
      compare_query_times run_a run_b = compareSpec run_a run_b) ∧
    compare_query_times [("q1", 2), ("q2", 4)] [("q1", 1), ("q3", 9)] = [2] := by
  refine ⟨fun run_a run_b => ?_,
    by simp [compare_query_times, compareStep, List.lookup]⟩
  rw [compare_query_times, foldl_compareStep, List.nil_append]

/-- Membership test for one half-open histogram bin. -/
def inBin (lo hi r : ℚ) : Bool := decide (lo ≤ r ∧ r < hi)

/-- Embedding of the binning step of plot_ratio_histogram from slow_down.py
and plan_space.py (the two copies are identical): np.histogram with edges
[0.3, 0.9, 1.1, 2, 10, 100, inf] counts each value into the half-open bin
between consecutive edges, the last bin catching everything at or above 100;
values below 0.3 fall into no bin. -/
def histCounts (ratios : List ℚ) : List ℕ :=
  [ratios.countP (inBin (3/10) (9/10)),
   ratios.countP (inBin (9/10) (11/10)),
   ratios.countP (inBin (11/10) 2),
   ratios.countP (inBin 2 10),
   ratios.countP (inBin 10 100),
   ratios.countP (fun r => decide (100 ≤ r))]

/-- Embedding of the proportions computed by plot_ratio_histogram: each bin
count divided by the full input length, times 100. The plotting side effects
are not modelled. -/
def plot_ratio_histogram (ratios : List ℚ) : List ℚ :=
  (histCounts ratios).map (fun c => (c : ℚ) / ratios.length * 100)

theorem histCounts_sum_cons (r : ℚ) (t : List ℚ) :
    (histCounts (r :: t)).sum
      = (histCounts t).sum + (if (3:ℚ)/10 ≤ r then 1 else 0) := by
  simp only [histCounts, List.countP_cons, List.sum_cons, List.sum_nil,
    inBin, decide_eq_true_eq]
  by_cases h1 : (3:ℚ)/10 ≤ r <;>
  by_cases h2 : (9:ℚ)/10 ≤ r <;>
  by_cases h3 : (11:ℚ)/10 ≤ r <;>
  by_cases h4 : (2:ℚ) ≤ r <;>
  by_cases h5 : (10:ℚ) ≤ r <;>
  by_cases h6 : (100:ℚ) ≤ r <;>
  simp only [h1, h2, h3, h4, h5, h6, lt_iff_not_le, not_true, not_false_iff,
    true_and, false_and, and_true, and_false, if_true, if_false, and_self] <;>
  first | omega | (exfalso; linarith)

/-- C7: on the spec example the buckets hold 25, 50, 0, 0, 25 and 0 percent;
in general every value at least 0.3 is counted in exactly one bucket and
values below 0.3 are dropped, while the percentage denominator is the full
input length, so the percentages can sum to less than 100 (witnessed by the
input [0.1, 1], whose percentages sum to 50). -/
theorem plot_ratio_histogram_buckets :
    plot_ratio_histogram [1/2, 1, 1, 50] = [25, 50, 0, 0, 25, 0] ∧
    (∀ ratios : List ℚ,
      (histCounts ratios).sum = ratios.countP (fun r => decide ((3:ℚ)/10 ≤ r))) ∧
    (plot_ratio_histogram [1/10, 1]).sum < 100 := by
  refine ⟨?_, fun ratios => ?_, ?_⟩
  · norm_num [plot_ratio_histogram, histCounts, inBin,
      List.countP_cons, List.countP_nil]
  · induction ratios with
    | nil => rfl
    | cons r t ih =>
      rw [histCounts_sum_cons, ih, List.countP_cons]
      simp [decide_eq_true_eq]
  · norm_num [plot_ratio_histogram, histCounts, inBin,
      List.countP_cons, List.countP_nil]

/-- Insert a value into a sorted ratio list, ascending. -/
def insertAsc (x : ℚ) : List ℚ → List ℚ
  | [] => [x]
  | y :: ys => if x ≤ y then x :: y :: ys else y :: insertAsc x ys

/-- Insertion sort of a ratio list, ascending. -/
def sortAsc (l : List ℚ) : List ℚ := l.foldr insertAsc []

/-- Median of an already sorted nonempty list: the middle element, or the
mean of the two middle elements at even length. -/
def medianSorted (s : List ℚ) : ℚ :=
  if s.length % 2 = 1 then s.getD (s.length / 2) 0
  else (s.getD (s.length / 2 - 1) 0 + s.getD (s.length / 2) 0) / 2

/-- Percentile of an already sorted nonempty list, linearly interpolated
between the two neighbouring order statistics (the numpy default). -/
def percentileSorted (s : List ℚ) (p : ℚ) : ℚ :=
  let idx : ℚ := ((s.length : ℚ) - 1) * p / 100
  let lo : ℕ := ⌊idx⌋.toNat
  let frac : ℚ := idx - (lo : ℚ)
  s.getD lo 0 + frac * (s.getD (lo + 1) (s.getD lo 0) - s.getD lo 0)

/-- Embedding of the numpy median call made by the main block of
plan_space.py. On an empty array numpy median returns nan together with a
RuntimeWarning rather than raising; the nan result is modelled as none. -/
def np_median (l : List ℚ) : Option ℚ :=
  match l with
  | [] => none
  | x :: xs => some (medianSorted (sortAsc (x :: xs)))

/-- Embedding of the numpy percentile call made by the main block of
plan_space.py, at the 95th percentile. On an empty array numpy percentile
yields no number either: depending on the numpy version it raises an
IndexError or a ValueError, or returns nan with a RuntimeWarning; all these
outcomes are modelled as none, and none of them is an EmptyInputError. -/
def np_percentile95 (l : List ℚ) : Option ℚ :=
  match l with
  | [] => none
  | x :: xs => some (percentileSorted (sortAsc (x :: xs)) 95)

/-- Embedding of the numpy max call made by the main block of
plan_space.py: the reduction of an empty array raises a ValueError. -/
def np_max (l : List ℚ) : Except String ℚ :=
  match l with
  | [] =>
    Except.error
      "ValueError: zero-size array to reduction operation maximum which has no identity"
  | x :: xs => Except.ok (xs.foldl max x)

/-- Embedding of the summarization step of the main block of plan_space.py:
for one ratio array it prints its median, its 95th percentile and its max,
computed by the three numpy calls; no code path checks for an empty input
and no EmptyInputError exists anywhere in the sources. -/
def summarizeMain (ratios : List ℚ) : Option ℚ × Option ℚ × Except String ℚ :=
  (np_median ratios, np_percentile95 ratios, np_max ratios)

/-- C8: the summarization step of the code does not fail with an
EmptyInputError on an empty ratio collection: the median call returns nan (a
value, with a RuntimeWarning) instead of raising, the percentile call yields
no number, and the max call raises a ValueError; no EmptyInputError check
exists. Every nonempty collection is summarized to plain values. -/
theorem summarize_empty_no_empty_input_error :
    summarizeMain [] =
      (none, none,
        Except.error
          "ValueError: zero-size array to reduction operation maximum which has no identity") ∧
    ∀ (x : ℚ) (xs : List ℚ), ∃ med p95 mx,
      summarizeMain (x :: xs) = (some med, some p95, Except.ok mx) :=
  ⟨rfl, fun x xs => ⟨_, _, _, rfl⟩⟩

/-- One row of the flattened cardinality table built by
_parse_cardinalities in selectivity_quality.py. The Python code keeps four
parallel lists that are always appended to in lockstep; they are modelled as
one list of records. -/
structure PlanRecord where
  node_type : String
  join_level : ℕ
  estimated : ℚ
  actual : ℚ
deriving DecidableEq

/-- A query plan as decoded from the explain output: every node carries its
Node Type, Plan Rows and Actual Rows, and an ordered list of children. A
node is a leaf exactly when its children list is empty, which in the JSON
input is the absence of the Plans key (the KeyError branch of the source). -/
inductive PlanTree where
  | node (node_type : String) (plan_rows actual_rows : ℚ)
      (children : List PlanTree)

/-- The join-family membership test of _parse_cardinalities: the node type
is one of Hash Join, Nested Loop and Merge Join. -/
def isJoinType (nt : String) : Bool :=
  ["Hash Join", "Nested Loop", "Merge Join"].contains nt

/-- Embedding of the builtin max over a list of join levels: Python max
raises a ValueError on an empty sequence, modelled as the none case. -/
def maxJoinLevel : List ℕ → Option ℕ
  | [] => none
  | x :: xs => some (xs.foldl Nat.max x)

mutual

/-- Embedding of _parse_cardinalities for a non-top-level call. A leaf (the
KeyError branch) emits one record at join level 0 unless it is an Aggregate
node. An internal node concatenates the records of its children in order,
takes the max of their join levels (a ValueError when no child produced a
record, since only KeyError is caught by the source), and appends its own
record unless it is an Aggregate node, with join level max + 1 for the join
family and max otherwise. -/
def parseCardinalities : PlanTree → Except String (List PlanRecord)
  | .node nt pr ar [] =>
    if nt ≠ "Aggregate" then
      Except.ok [⟨nt, 0, pr, ar⟩]
    else
      Except.ok []
  | .node nt pr ar (c :: cs) =>
    match parseChildren (c :: cs) with
    | Except.error e => Except.error e
    | Except.ok recs =>
      match maxJoinLevel (recs.map PlanRecord.join_level) with
      | none => Except.error "ValueError: max() arg is an empty sequence"
      | some m =>
        if nt ≠ "Aggregate" then
          Except.ok (recs ++ [⟨nt, if isJoinType nt then m + 1 else m, pr, ar⟩])
        else
          Except.ok recs

/-- The loop over subplans of _parse_cardinalities: recurse into each child
in order and concatenate the returned records, propagating the first raised
exception. -/
def parseChildren : List PlanTree → Except String (List PlanRecord)
  | [] => Except.ok []
  | t :: ts =>
    match parseCardinalities t with
    | Except.error e => Except.error e
    | Except.ok recs =>
      match parseChildren ts with
      | Except.error e => Except.error e
      | Except.ok rest => Except.ok (recs ++ rest)

end

/-- Embedding of the top-level call of _parse_cardinalities, where the
top_level_node flag is true: the second component is the value the call
assigns to self.max_join_level, which stays unassigned (none) when the root
is a leaf, and is the max over the join levels of the records collected
from the children when the root is an internal node. -/
def parseTop : PlanTree → Except String (List PlanRecord × Option ℕ)
  | .node nt pr ar [] =>
    if nt ≠ "Aggregate" then
      Except.ok ([⟨nt, 0, pr, ar⟩], none)
    else
      Except.ok ([], none)
  | .node nt pr ar (c :: cs) =>
    match parseChildren (c :: cs) with
    | Except.error e => Except.error e
    | Except.ok recs =>
      match maxJoinLevel (recs.map PlanRecord.join_level) with
      | none => Except.error "ValueError: max() arg is an empty sequence"
      | some m =>
        if nt ≠ "Aggregate" then
          Except.ok
            (recs ++ [⟨nt, if isJoinType nt then m + 1 else m, pr, ar⟩], some m)
        else
          Except.ok (recs, some m)

mutual

/-- The number of nodes of a tree whose node type is not Aggregate. -/
def countNonAggregate : PlanTree → ℕ
  | .node nt _ _ children =>
    (if nt ≠ "Aggregate" then 1 else 0) + countNonAggregateList children

/-- The number of non-Aggregate nodes summed over a forest. -/
def countNonAggregateList : List PlanTree → ℕ
  | [] => 0
  | t :: ts => countNonAggregate t + countNonAggregateList ts

end

mutual

theorem parse_length : ∀ (t : PlanTree) (recs : List PlanRecord),
    parseCardinalities t = Except.ok recs →
    recs.length = countNonAggregate t
  | .node nt pr ar [], recs, h => by
    rw [parseCardinalities] at h
    by_cases hnt : nt = "Aggregate" <;>
      simp [hnt] at h <;>
      simp [countNonAggregate, countNonAggregateList, hnt, ← h]
  | .node nt pr ar (c :: cs), recs, h => by
    rw [parseCardinalities] at h
    split at h
    next e heq => exact absurd h (by simp)
    next crecs heq =>
      have hlen := parseChildren_length (c :: cs) crecs heq
      split at h
      next heq2 => exact absurd h (by simp)
      next m heq2 =>
        by_cases hnt : nt = "Aggregate" <;>
          simp [hnt] at h <;>
          simp [countNonAggregate, hnt, ← h, hlen] <;>
          omega

theorem parseChildren_length : ∀ (ts : List PlanTree) (recs : List PlanRecord),
    parseChildren ts = Except.ok recs →
    recs.length = countNonAggregateList ts
  | [], recs, h => by
    rw [parseChildren] at h
    simp at h
    simp [countNonAggregateList, ← h]
  | t :: ts, recs, h => by
    rw [parseChildren] at h
    split at h
    next e heq => exact absurd h (by simp)
    next trecs heq =>
      split at h
      next heq2 => exact absurd h (by simp)
      next rrecs heq2 =>
        have h1 := parse_length t trecs heq
        have h2 := parseChildren_length ts rrecs heq2
        rw [Except.ok.injEq] at h
        subst h
        simp [countNonAggregateList, ← h1, ← h2]

end

/-- A single Hash Join over two Seq Scan leaves, used as concrete input. -/
def exJoinTree : PlanTree :=
  .node "Hash Join" 100 90
    [.node "Seq Scan" 10 9 [], .node "Seq Scan" 20 21 []]

/-- A Limit node over an Aggregate node over a Seq Scan leaf, a tree that
contains one skipped Aggregate node with a surviving descendant. -/
def exAggTree : PlanTree :=
  .node "Limit" 5 5 [.node "Aggregate" 1 1 [.node "Seq Scan" 10 9 []]]

/-- A parent whose sole child is an Aggregate leaf: the degenerate input of
the known fragility of the extractor. -/
def soleAggregateTree : PlanTree :=
  .node "Limit" 1 1 [.node "Aggregate" 1 1 []]

/-- C2: whenever the extractor returns a record list, its length is the
number of nodes of the tree whose node type is not Aggregate; Aggregate
nodes emit no record of their own while the records of their descendants
are still included in the count. -/
theorem parse_record_count_eq_nonaggregate_nodes
    (t : PlanTree) (recs : List PlanRecord)
    (h : parseCardinalities t = Except.ok recs) :
    recs.length = countNonAggregate t :=
  parse_length t recs h

/-- C2 witness: the record count evaluated on the Limit over Aggregate over
Seq Scan tree, which has two non-Aggregate nodes. -/
theorem parse_record_count_eq_nonaggregate_nodes_witness :
    parseCardinalities exAggTree =
      Except.ok [⟨"Seq Scan", 0, 10, 9⟩, ⟨"Limit", 0, 5, 5⟩] ∧
    ([⟨"Seq Scan", 0, 10, 9⟩, ⟨"Limit", 0, 5, 5⟩] : List PlanRecord).length
      = countNonAggregate exAggTree :=
  ⟨by simp [exAggTree, parseCardinalities, parseChildren, maxJoinLevel,
      isJoinType],
   parse_record_count_eq_nonaggregate_nodes exAggTree _
     (by simp [exAggTree, parseCardinalities, parseChildren, maxJoinLevel,
       isJoinType])⟩

/-- C3: a non-Aggregate leaf emits one record at join level 0; a
non-Aggregate internal node, when the gathered records of its children have
maximum join level m, appends its own record at join level m + 1 when its
node type belongs to the join family and at join level m otherwise; on the
tree with a single Hash Join over two leaves the join node's record has
join level 1. -/
theorem parse_join_level_rule :
    (∀ (nt : String) (pr ar : ℚ), nt ≠ "Aggregate" →
      parseCardinalities (PlanTree.node nt pr ar [])
        = Except.ok [⟨nt, 0, pr, ar⟩]) ∧
    (∀ (nt : String) (pr ar : ℚ) (c : PlanTree) (cs : List PlanTree)
        (crecs : List PlanRecord) (m : ℕ), nt ≠ "Aggregate" →
      parseChildren (c :: cs) = Except.ok crecs →
      maxJoinLevel (crecs.map PlanRecord.join_level) = some m →
      parseCardinalities (PlanTree.node nt pr ar (c :: cs)) =
        Except.ok
          (crecs ++ [⟨nt, if isJoinType nt then m + 1 else m, pr, ar⟩])) ∧
    parseCardinalities exJoinTree =
      Except.ok [⟨"Seq Scan", 0, 10, 9⟩, ⟨"Seq Scan", 0, 20, 21⟩,
        ⟨"Hash Join", 1, 100, 90⟩] := by
  refine ⟨fun nt pr ar hnt => by simp [parseCardinalities, hnt],
    fun nt pr ar c cs crecs m hnt hc hm => ?_,
    by simp [exJoinTree, parseCardinalities, parseChildren, maxJoinLevel,
      isJoinType]⟩
  rw [parseCardinalities, hc]
  simp [hm, hnt]

/-- C3 witness: the internal-node rule instantiated on the Hash Join over
two Seq Scan leaves, whose children records both sit at join level 0. -/
theorem parse_join_level_rule_witness :
    parseCardinalities
        (PlanTree.node "Hash Join" 100 90
          [PlanTree.node "Seq Scan" 10 9 [], PlanTree.node "Seq Scan" 20 21 []])
      = Except.ok
          ([⟨"Seq Scan", 0, 10, 9⟩, ⟨"Seq Scan", 0, 20, 21⟩] ++
            [⟨"Hash Join", if isJoinType "Hash Join" then 0 + 1 else 0,
              100, 90⟩]) :=
  parse_join_level_rule.2.1 "Hash Join" 100 90
    (PlanTree.node "Seq Scan" 10 9 []) [PlanTree.node "Seq Scan" 20 21 []]
    [⟨"Seq Scan", 0, 10, 9⟩, ⟨"Seq Scan", 0, 20, 21⟩] 0
    (by simp)
    (by simp [parseChildren, parseCardinalities])
    (by simp [maxJoinLevel])

/-- C4: on a parent whose sole child is an Aggregate leaf the extractor does
raise: the child contributes no record, so the builtin max is applied to an
empty sequence and the resulting ValueError is not caught (the source only
catches KeyError), contradicting the stated requirement that this degenerate
case yields join level 0 without an error. -/
theorem parse_sole_aggregate_child_raises :
    parseCardinalities soleAggregateTree =
      Except.error "ValueError: max() arg is an empty sequence" ∧
    parseTop soleAggregateTree =
      Except.error "ValueError: max() arg is an empty sequence" := by
  constructor <;>
    simp [soleAggregateTree, parseCardinalities, parseChildren, parseTop,
      maxJoinLevel]

/-- C9 counterexample: on the Hash Join root over two leaves the stored
max join level attribute is 0, the max over the children's records, while
the join level of the record emitted for the root itself is 1; the stored
attribute therefore differs from the root's computed join level. -/
theorem max_join_level_root_counterexample :
    parseTop exJoinTree =
      Except.ok ([⟨"Seq Scan", 0, 10, 9⟩, ⟨"Seq Scan", 0, 20, 21⟩,
        ⟨"Hash Join", 1, 100, 90⟩], some 0) ∧
    (0 : ℕ) ≠ 1 := by
  refine ⟨?_, by simp⟩
  simp [exJoinTree, parseTop, parseChildren, parseCardinalities,
    maxJoinLevel, isJoinType]

/-- C9 amended: for a root with at least one child, the stored max join
level attribute equals the max of the join levels of the records gathered
from the children, computed before the root's own record is appended, so it
omits the +1 increment of a join-family root; for a leaf root the attribute
is never assigned. -/
theorem max_join_level_stored_is_children_max
    (nt : String) (pr ar : ℚ) (c : PlanTree) (cs : List PlanTree)
    (crecs recs : List PlanRecord) (stored : Option ℕ)
    (hc : parseChildren (c :: cs) = Except.ok crecs)
    (h : parseTop (PlanTree.node nt pr ar (c :: cs))
      = Except.ok (recs, stored)) :
    stored = maxJoinLevel (crecs.map PlanRecord.join_level) := by
  rw [parseTop, hc] at h
  split at h
  next e heq => exact absurd heq (by simp)
  next crecs2 heq =>
    rw [Except.ok.injEq] at heq
    subst heq
    split at h
    next heq2 => exact absurd h (by simp)
    next m heq2 =>
      by_cases hnt : nt = "Aggregate" <;>
        simp [hnt] at h <;>
        simp_all

/-- C9 amended witness: the amended statement evaluated on the Hash Join
root over two leaves, whose stored attribute is the children's max 0. -/
theorem max_join_level_stored_is_children_max_witness :
    (some 0 : Option ℕ) =
      maxJoinLevel
        (([⟨"Seq Scan", 0, 10, 9⟩,
           ⟨"Seq Scan", 0, 20, 21⟩] : List PlanRecord).map
          PlanRecord.join_level) :=
  max_join_level_stored_is_children_max "Hash Join" 100 90
    (PlanTree.node "Seq Scan" 10 9 []) [PlanTree.node "Seq Scan" 20 21 []]
    [⟨"Seq Scan", 0, 10, 9⟩, ⟨"Seq Scan", 0, 20, 21⟩]
    [⟨"Seq Scan", 0, 10, 9⟩, ⟨"Seq Scan", 0, 20, 21⟩,
      ⟨"Hash Join", 1, 100, 90⟩] (some 0)
    (by simp [parseChildren, parseCardinalities])
    (by simp [parseTop, parseChildren, parseCardinalities, maxJoinLevel,
      isJoinType])

end CardEst
